import Mathlib

/-!
Verification of the `rust_indexer` batch job (src/src/main.rs): a one-shot
pipeline that fetches customers, orders and items from a relational source,
groups children by foreign key into hash maps, enriches orders with their
items and customers with their enriched orders (two parallel map passes whose
output order equals input order), and bulk-writes the denormalized customers
to a search index, checking the response's `errors` flag.

Machine integers (`i64`) are modelled as `Int`; no arithmetic is performed on
them, so overflow never arises. The `HashMap<i64, Vec<_>>` built by the two
`entry(..).or_insert(Vec::new()).push(..)` loops is modelled as an association
list with the same insertion semantics (`groupInsert`); `rayon`'s
`par_iter().map().collect()`, which preserves index-to-result correspondence,
is modelled as `List.map`. Fallible I/O is explicit: query results are
`Except String`, an `unwrap` abort during row conversion is the `none`
of an outer `Option`, and the transport of the terminal bulk call is a
function from request body to `Except String Json`.
-/

namespace RustIndexer

/-- Rust `struct Item` from main.rs: item_id, description, order_id. -/
structure Item where
  item_id : Int
  description : String
  order_id : Int
deriving DecidableEq, Repr

/-- Rust `struct Order` from main.rs: order_id, description, customer_id, items. -/
structure Order where
  order_id : Int
  description : String
  customer_id : Int
  items : List Item
deriving DecidableEq, Repr

/-- Rust `struct Customer` from main.rs: customer_id, description, orders. -/
structure Customer where
  customer_id : Int
  description : String
  orders : List Order
deriving DecidableEq, Repr

/-- serde_json `Value`. -/
inductive Json where
  | null
  | bool (b : Bool)
  | num (n : Int)
  | str (s : String)
  | arr (elems : List Json)
  | obj (fields : List (String × Json))
deriving Repr

/-- serde `#[derive(Serialize)]` for `Item`: fields in declaration order. -/
def Item.toJson (i : Item) : Json :=
  .obj [("item_id", .num i.item_id), ("description", .str i.description),
        ("order_id", .num i.order_id)]

/-- serde `#[derive(Serialize)]` for `Order`. -/
def Order.toJson (o : Order) : Json :=
  .obj [("order_id", .num o.order_id), ("description", .str o.description),
        ("customer_id", .num o.customer_id),
        ("items", .arr (o.items.map Item.toJson))]

/-- serde `#[derive(Serialize)]` for `Customer`. -/
def Customer.toJson (c : Customer) : Json :=
  .obj [("customer_id", .num c.customer_id), ("description", .str c.description),
        ("orders", .arr (c.orders.map Order.toJson))]

/-- serde_json's `Index<&str>` for `Value` (`response_body["errors"]`): on an
object, the value at the key (`Null` if absent); `Null` on any non-object. -/
def Json.index (j : Json) (k : String) : Json :=
  match j with
  | .obj fields =>
    match fields.lookup k with
    | some v => v
    | none => .null
  | _ => .null

/-- serde_json's `Value::as_bool`: `Some` only on a boolean value. -/
def Json.as_bool : Json → Option Bool
  | .bool b => some b
  | _ => none

/-! ### Grouping index

`main` builds `items_map : HashMap<i64, Vec<Item>>` and
`orders_map : HashMap<i64, Vec<Order>>` with identical
`entry(key).or_insert(Vec::new()).push(value.clone())` loops. The map is
modelled as an association list; `groupInsert` is one loop iteration. -/

/-- One `map.entry(k).or_insert(Vec::new()).push(x)` step. -/
def groupInsert {α : Type} : List (Int × List α) → Int → α → List (Int × List α)
  | [], k, x => [(k, [x])]
  | (k', v) :: rest, k, x =>
    if k' = k then (k', v ++ [x]) :: rest else (k', v) :: groupInsert rest k x

/-- The whole grouping loop: fold `groupInsert` over the fetched list. -/
def group_by_key {α : Type} (key : α → Int) (xs : List α) : List (Int × List α) :=
  xs.foldl (fun m x => groupInsert m (key x) x) []

/-- Lookup (`HashMap::get`) on the modelled map. -/
def mapLookup {α : Type} : List (Int × List α) → Int → Option (List α)
  | [], _ => none
  | (k', v) :: rest, k => if k' = k then some v else mapLookup rest k

/-- The `items_map` loop of `main` (lines 63-66): group items by `order_id`. -/
def items_map (items_list : List Item) : List (Int × List Item) :=
  group_by_key Item.order_id items_list

/-- The `orders_map` loop of `main` (lines 71-74): group (enriched) orders by
`customer_id`. -/
def orders_map (orders : List Order) : List (Int × List Order) :=
  group_by_key Order.customer_id orders

/-! ### Denormalizer -/

/-- Function `sort_data_orders` (main.rs lines 100-106): attach the item group for this
order's `order_id`, if any. -/
def sort_data_orders (order : Order) (m : List (Int × List Item)) : Order :=
  match mapLookup m order.order_id with
  | some items => { order with items := items }
  | none => order

/-- Function `sort_data_customers` (main.rs lines 92-98): attach the order group for
this customer's `customer_id`, if any. -/
def sort_data_customers (customer : Customer) (m : List (Int × List Order)) : Customer :=
  match mapLookup m customer.customer_id with
  | some orders => { customer with orders := orders }
  | none => customer

/-- Pass 1 of `main` (line 68): `order_list.par_iter().map(|order|
sort_data_orders(order.clone(), &items_map)).collect()`. -/
def enrich_orders (order_list : List Order) (items_list : List Item) : List Order :=
  order_list.map (fun order => sort_data_orders order (items_map items_list))

/-- Pass 2 of `main` (lines 71-76): rebuild the grouping over the enriched
orders, then `customer_list.par_iter().map(|x| sort_data_customers(x.clone(),
&orders_map)).collect()`. -/
def denormalize (customer_list : List Customer) (order_list : List Order)
    (items_list : List Item) : List Customer :=
  customer_list.map
    (fun x => sort_data_customers x (orders_map (enrich_orders order_list items_list)))

/-! ### Bulk indexer -/

/-- The action header `json!({"index": {"_id": idx}})` for position `idx`. -/
def action_line (idx : Nat) : Json :=
  .obj [("index", .obj [("_id", .num (Int.ofNat idx))])]

/-- The body-construction loop of `bulk_insert_into_el` (lines 109-114):
`Vec::with_capacity(size)` then, for each `(idx, customer)` of
`data.iter().enumerate()`, push the action header and the serialized
document. `size` only pre-reserves capacity and never reaches the contents. -/
def bulk_request_body (data : List Customer) (size : Nat) : List Json :=
  let _ := size
  data.enum.foldl (fun body p => body ++ [action_line p.1, Customer.toJson p.2]) []

/-- Response handling of `bulk_insert_into_el` (lines 122-123):
`!response_body["errors"].as_bool().unwrap()`; `none` models the `unwrap`
panic when the field is absent or not a boolean. -/
def bulk_response_success (response_body : Json) : Option Bool :=
  ((response_body.index "errors").as_bool).map (fun b => !b)

/-- Function `bulk_insert_into_el` (lines 108-128) against an abstract transport
(`send` + `.json::<Value>()`, whose `Err` covers transport failure and a
malformed response). The returned `Bool` is the printed success indicator;
the `unwrap` panic on a missing `errors` flag is modelled as a fatal
`Except.error`, since a panic and a propagated `Err` both abort the run. -/
def bulk_insert_into_el (data : List Customer) (size : Nat)
    (transport : List Json → Except String Json) : Except String Bool :=
  let body := bulk_request_body data size
  match transport body with
  | .error e => .error e
  | .ok response_body =>
    match bulk_response_success response_body with
    | some successful => .ok successful
    | none => .error "called Option.unwrap on a None value"

/-! ### Row fetchers -/

/-- A row of `SELECT customer_id, description FROM simple.customer`; sqlx
infers `description` as nullable, hence `Option`. -/
structure CustomerRow where
  customer_id : Int
  description : Option String
deriving DecidableEq, Repr

/-- A row of `SELECT order_id, order_description, customer_id FROM
simple.order`; `order_description` and `customer_id` are nullable. -/
structure OrderRow where
  order_id : Int
  order_description : Option String
  customer_id : Option Int
deriving DecidableEq, Repr

/-- A row of `SELECT item_id, item_description, order_id FROM simple.item`;
`item_description` and `order_id` are nullable. -/
structure ItemRow where
  item_id : Int
  item_description : Option String
  order_id : Option Int
deriving DecidableEq, Repr

/-- The conversion loop of `fetch_all_customers` (lines 143-150):
`rec.description.unwrap()` panics on a null description (`none`). -/
def rows_to_customers : List CustomerRow → Option (List Customer)
  | [] => some []
  | rec :: recs =>
    match rec.description with
    | none => none
    | some d => (rows_to_customers recs).map
        (fun rest => { customer_id := rec.customer_id, description := d, orders := [] } :: rest)

/-- The conversion loop of `fetch_all_orders` (lines 168-176): unwraps
`order_description` and `customer_id`. -/
def rows_to_orders : List OrderRow → Option (List Order)
  | [] => some []
  | rec :: recs =>
    match rec.order_description, rec.customer_id with
    | some d, some cid => (rows_to_orders recs).map
        (fun rest => { order_id := rec.order_id, description := d,
                       customer_id := cid, items := [] } :: rest)
    | _, _ => none

/-- The conversion loop of `fetch_all_items` (lines 194-201): unwraps
`item_description` and `order_id`. -/
def rows_to_items : List ItemRow → Option (List Item)
  | [] => some []
  | rec :: recs =>
    match rec.item_description, rec.order_id with
    | some d, some oid => (rows_to_items recs).map
        (fun rest => { item_id := rec.item_id, description := d, order_id := oid } :: rest)
    | _, _ => none

/-- Function `fetch_all_customers` over an abstract query result. The outer `Option` is
`none` exactly when the conversion loop panics; a failed query is `some
(.error e)`, which `main` later absorbs. -/
def fetch_all_customers (q : Except String (List CustomerRow)) :
    Option (Except String (List Customer)) :=
  match q with
  | .error e => some (.error e)
  | .ok recs => (rows_to_customers recs).map Except.ok

/-- Function `fetch_all_orders` over an abstract query result. -/
def fetch_all_orders (q : Except String (List OrderRow)) :
    Option (Except String (List Order)) :=
  match q with
  | .error e => some (.error e)
  | .ok recs => (rows_to_orders recs).map Except.ok

/-- Function `fetch_all_items` over an abstract query result. -/
def fetch_all_items (q : Except String (List ItemRow)) :
    Option (Except String (List Item)) :=
  match q with
  | .error e => some (.error e)
  | .ok recs => (rows_to_items recs).map Except.ok

/-- The `match .. { Ok(v) => v, _ => Vec::new() }` blocks of `main`
(lines 44-47, 50-53, 56-59). -/
def unwrap_or_empty {α : Type} : Except String (List α) → List α
  | .ok l => l
  | .error _ => []

/-- Function `main` (lines 43-89): three fetches (each degrading a query error to the
empty list), denormalization, then the bulk write with batch-size hint 2000.
The outer `Option` is `none` when a conversion panic aborts the run; the
inner `Except` is the propagated result of the terminal bulk call, carrying
the printed success indicator on success. -/
def main_run (custQ : Except String (List CustomerRow))
    (ordQ : Except String (List OrderRow)) (itmQ : Except String (List ItemRow))
    (transport : List Json → Except String Json) : Option (Except String Bool) :=
  match fetch_all_customers custQ with
  | none => none
  | some custs =>
    let customer_list := unwrap_or_empty custs
    match fetch_all_orders ordQ with
    | none => none
    | some ords =>
      let order_list := unwrap_or_empty ords
      match fetch_all_items itmQ with
      | none => none
      | some itms =>
        let items_list := unwrap_or_empty itms
        some (bulk_insert_into_el (denormalize customer_list order_list items_list)
          2000 transport)

/-! ### Grouping lemmas -/

theorem mapLookup_groupInsert {α : Type} (m : List (Int × List α)) (k k' : Int) (x : α) :
    mapLookup (groupInsert m k x) k' =
      if k = k' then some (((mapLookup m k').getD []) ++ [x]) else mapLookup m k' := by
  induction m with
  | nil => by_cases h : k = k' <;> simp [groupInsert, mapLookup, h]
  | cons p rest ih =>
    obtain ⟨k₀, v⟩ := p
    by_cases h0 : k₀ = k
    · subst h0
      by_cases h1 : k₀ = k'
      · subst h1; simp [groupInsert, mapLookup]
      · simp [groupInsert, mapLookup, h1]
    · by_cases h1 : k₀ = k'
      · subst h1
        have h0' : ¬k = k₀ := fun h => h0 h.symm
        simp [groupInsert, mapLookup, h0, h0']
      · simp [groupInsert, mapLookup, h0, h1, ih]

/-- What a grouping lookup yields, as a function of the previous value and the
newly filtered elements (helper for `mapLookup_fold`). -/
def groupSpec {α : Type} [DecidableEq α] (prev : Option (List α)) (f : List α) :
    Option (List α) :=
  match prev with
  | some l => some (l ++ f)
  | none => if f = [] then none else some f

theorem mapLookup_fold {α : Type} [DecidableEq α] (key : α → Int) (xs : List α)
    (m : List (Int × List α)) (k : Int) :
    mapLookup (xs.foldl (fun m x => groupInsert m (key x) x) m) k =
      groupSpec (mapLookup m k) (xs.filter (fun x => key x = k)) := by
  induction xs generalizing m with
  | nil => rcases hm : mapLookup m k with _ | l <;> simp [groupSpec, hm]
  | cons x xs ih =>
    rw [List.foldl_cons, ih, mapLookup_groupInsert]
    by_cases hx : key x = k
    · rcases hm : mapLookup m k with _ | l <;>
        simp [groupSpec, hx, hm, List.filter_cons]
    · simp [groupSpec, hx, List.filter_cons]

theorem mapLookup_group_by_key {α : Type} [DecidableEq α] (key : α → Int)
    (xs : List α) (k : Int) :
    mapLookup (group_by_key key xs) k =
      if xs.filter (fun x => key x = k) = [] then none
      else some (xs.filter (fun x => key x = k)) := by
  have h := mapLookup_fold key xs [] k
  simpa [group_by_key, groupSpec, mapLookup] using h

theorem mapLookup_group_some {α : Type} [DecidableEq α] {key : α → Int}
    {xs : List α} {k : Int} {l : List α}
    (h : mapLookup (group_by_key key xs) k = some l) :
    l = xs.filter (fun x => key x = k) := by
  rw [mapLookup_group_by_key] at h
  by_cases hf : xs.filter (fun x => key x = k) = [] <;> simp [hf] at h
  exact h.symm

theorem mapLookup_group_none_iff {α : Type} [DecidableEq α] (key : α → Int)
    (xs : List α) (k : Int) :
    mapLookup (group_by_key key xs) k = none ↔
      xs.filter (fun x => key x = k) = [] := by
  rw [mapLookup_group_by_key]
  by_cases hf : xs.filter (fun x => key x = k) = [] <;> simp [hf]

theorem mapLookup_group_ne_nil {α : Type} [DecidableEq α] (key : α → Int)
    (xs : List α) (k : Int) :
    mapLookup (group_by_key key xs) k ≠ some [] := by
  rw [mapLookup_group_by_key]
  by_cases hf : xs.filter (fun x => key x = k) = [] <;> simp [hf]

/-! ### Enrichment characterizations -/

theorem sort_data_orders_eq (order : Order) (items_list : List Item)
    (h : order.items = []) :
    sort_data_orders order (items_map items_list) =
      { order with items := items_list.filter (fun it => it.order_id = order.order_id) } := by
  unfold sort_data_orders items_map
  rcases hm : mapLookup (group_by_key Item.order_id items_list) order.order_id with _ | l
  · rw [mapLookup_group_none_iff] at hm
    obtain ⟨oid, d, cid, its⟩ := order
    simp only [Order.mk.injEq] at *
    simp [hm, h]
  · have hl := mapLookup_group_some hm
    simp [hl]

theorem sort_data_customers_eq (customer : Customer) (orders : List Order)
    (h : customer.orders = []) :
    sort_data_customers customer (orders_map orders) =
      { customer with
        orders := orders.filter (fun o => o.customer_id = customer.customer_id) } := by
  unfold sort_data_customers orders_map
  rcases hm : mapLookup (group_by_key Order.customer_id orders) customer.customer_id with _ | l
  · rw [mapLookup_group_none_iff] at hm
    obtain ⟨cid, d, ords⟩ := customer
    simp only [Customer.mk.injEq] at *
    simp [hm, h]
  · have hl := mapLookup_group_some hm
    simp [hl]

theorem sort_data_orders_congr (order : Order) (m₁ m₂ : List (Int × List Item))
    (h : mapLookup m₁ order.order_id = mapLookup m₂ order.order_id) :
    sort_data_orders order m₁ = sort_data_orders order m₂ := by
  unfold sort_data_orders
  rw [h]

theorem sort_data_customers_congr (customer : Customer)
    (m₁ m₂ : List (Int × List Order))
    (h : mapLookup m₁ customer.customer_id = mapLookup m₂ customer.customer_id) :
    sort_data_customers customer m₁ = sort_data_customers customer m₂ := by
  unfold sort_data_customers
  rw [h]

theorem sort_data_orders_order_id (o : Order) (m : List (Int × List Item)) :
    (sort_data_orders o m).order_id = o.order_id := by
  unfold sort_data_orders
  rcases mapLookup m o.order_id <;> rfl

theorem sort_data_orders_description (o : Order) (m : List (Int × List Item)) :
    (sort_data_orders o m).description = o.description := by
  unfold sort_data_orders
  rcases mapLookup m o.order_id <;> rfl

theorem sort_data_orders_customer_id (o : Order) (m : List (Int × List Item)) :
    (sort_data_orders o m).customer_id = o.customer_id := by
  unfold sort_data_orders
  rcases mapLookup m o.order_id <;> rfl

theorem sort_data_customers_customer_id (c : Customer) (m : List (Int × List Order)) :
    (sort_data_customers c m).customer_id = c.customer_id := by
  unfold sort_data_customers
  rcases mapLookup m c.customer_id <;> rfl

theorem sort_data_customers_description (c : Customer) (m : List (Int × List Order)) :
    (sort_data_customers c m).description = c.description := by
  unfold sort_data_customers
  rcases mapLookup m c.customer_id <;> rfl

theorem nodup_getElem?_ne {α : Type} {l : List α} (h : l.Nodup) {i j : Nat}
    (hij : i ≠ j) {a b : α} (ha : l[i]? = some a) (hb : l[j]? = some b) : a ≠ b := by
  rw [List.getElem?_eq_some_iff] at ha hb
  obtain ⟨hi, rfl⟩ := ha
  obtain ⟨hj, rfl⟩ := hb
  intro hab
  exact hij ((h.getElem_inj_iff).mp hab)

/-! ### Claim theorems -/

/-- C3: Grouping contract. For any fetched item list, each key of the
item grouping maps to exactly the items with that `order_id`, in original
order, each occurrence exactly once (count-preserving); a key with zero items
is absent (`none`), and no key maps to an empty list. The same holds for the
customer-id grouping over orders. -/
theorem grouping_contract (items_list : List Item) (order_list : List Order) :
    (∀ k, mapLookup (items_map items_list) k ≠ some []) ∧
    (∀ k l, mapLookup (items_map items_list) k = some l →
      l = items_list.filter (fun it => it.order_id = k) ∧
      ∀ x : Item, l.count x =
        if x.order_id = k then items_list.count x else 0) ∧
    (∀ k, mapLookup (items_map items_list) k = none ↔
      items_list.filter (fun it => it.order_id = k) = []) ∧
    (∀ k, mapLookup (orders_map order_list) k ≠ some []) ∧
    (∀ k l, mapLookup (orders_map order_list) k = some l →
      l = order_list.filter (fun o => o.customer_id = k) ∧
      ∀ x : Order, l.count x =
        if x.customer_id = k then order_list.count x else 0) ∧
    (∀ k, mapLookup (orders_map order_list) k = none ↔
      order_list.filter (fun o => o.customer_id = k) = []) := by
  refine ⟨fun k => mapLookup_group_ne_nil _ _ _,
          fun k l hl => ⟨mapLookup_group_some hl, fun x => ?_⟩,
          fun k => mapLookup_group_none_iff _ _ _,
          fun k => mapLookup_group_ne_nil _ _ _,
          fun k l hl => ⟨mapLookup_group_some hl, fun x => ?_⟩,
          fun k => mapLookup_group_none_iff _ _ _⟩
  · rw [mapLookup_group_some hl]
    by_cases hx : x.order_id = k
    · simp [hx, List.count_filter]
    · rw [if_neg hx, List.count_eq_zero]
      intro hmem
      rw [List.mem_filter] at hmem
      exact hx (by simpa using hmem.2)
  · rw [mapLookup_group_some hl]
    by_cases hx : x.customer_id = k
    · simp [hx, List.count_filter]
    · rw [if_neg hx, List.count_eq_zero]
      intro hmem
      rw [List.mem_filter] at hmem
      exact hx (by simpa using hmem.2)

/-- Witness for C3 at a concrete grouping: the group stored under key 10
is exactly the filtered item list. -/
theorem grouping_contract_witness :
    [Item.mk 100 "I1" 10] =
        [Item.mk 100 "I1" 10, Item.mk 101 "I2" 11].filter
          (fun it => it.order_id = 10) ∧
      ∀ x : Item, [Item.mk 100 "I1" 10].count x =
        if x.order_id = 10 then [Item.mk 100 "I1" 10, Item.mk 101 "I2" 11].count x
        else 0 :=
  (grouping_contract [Item.mk 100 "I1" 10, Item.mk 101 "I2" 11] []).2.1
    10 [Item.mk 100 "I1" 10] (by decide)

/-- C10: Frame property. `sort_data_orders` changes only `items`;
`sort_data_customers` changes only `orders`; both enrichment passes preserve
the length of the list they map over. -/
theorem enrichment_frame :
    (∀ (o : Order) (m : List (Int × List Item)),
      (sort_data_orders o m).order_id = o.order_id ∧
      (sort_data_orders o m).description = o.description ∧
      (sort_data_orders o m).customer_id = o.customer_id) ∧
    (∀ (c : Customer) (m : List (Int × List Order)),
      (sort_data_customers c m).customer_id = c.customer_id ∧
      (sort_data_customers c m).description = c.description) ∧
    (∀ (order_list : List Order) (items_list : List Item),
      (enrich_orders order_list items_list).length = order_list.length) ∧
    (∀ (customer_list : List Customer) (order_list : List Order)
        (items_list : List Item),
      (denormalize customer_list order_list items_list).length
        = customer_list.length) := by
  refine ⟨fun o m => ⟨?_, ?_, ?_⟩, fun c m => ⟨?_, ?_⟩, fun ol il => ?_,
          fun cl ol il => ?_⟩
  · exact sort_data_orders_order_id o m
  · exact sort_data_orders_description o m
  · exact sort_data_orders_customer_id o m
  · exact sort_data_customers_customer_id c m
  · exact sort_data_customers_description c m
  · simp [enrich_orders]
  · simp [denormalize]

/-- C6: Response handling. The printed success indicator is the negation of
the response's top-level boolean `errors` field; nothing else in the response
influences it; and a response without a boolean `errors` field makes the bulk
call fail fatally (the modelled `unwrap` panic). -/
theorem response_handling :
    (∀ (j : Json) (b : Bool), j.index "errors" = .bool b →
      bulk_response_success j = some (!b)) ∧
    (∀ j₁ j₂ : Json, j₁.index "errors" = j₂.index "errors" →
      bulk_response_success j₁ = bulk_response_success j₂) ∧
    (∀ j : Json, (j.index "errors").as_bool = none →
      bulk_response_success j = none) ∧
    (∀ (data : List Customer) (size : Nat)
        (transport : List Json → Except String Json) (j : Json),
      transport (bulk_request_body data size) = .ok j →
      (j.index "errors").as_bool = none →
      bulk_insert_into_el data size transport
        = .error "called Option.unwrap on a None value") := by
  refine ⟨fun j b h => ?_, fun j₁ j₂ h => ?_, fun j h => ?_,
          fun data size transport j ht h => ?_⟩
  · simp [bulk_response_success, h, Json.as_bool]
  · simp [bulk_response_success, h]
  · simp [bulk_response_success, h]
  · have hnone : bulk_response_success j = none := by
      simp [bulk_response_success, h]
    simp [bulk_insert_into_el, ht, hnone]

/-- Witness for C6: `{"errors": false}` yields printed success `true`. -/
theorem response_handling_witness :
    bulk_response_success (.obj [("errors", .bool false)]) = some true :=
  (response_handling).1 (.obj [("errors", .bool false)]) false rfl

/-- C9: The batch-size hint is advisory. The constructed bulk payload and the
whole call result are identical for any two hint values, and the call is a
single application of the transport to the body built from the entire list. -/
theorem batch_size_advisory (data : List Customer) (size size' : Nat)
    (transport : List Json → Except String Json) :
    bulk_request_body data size = bulk_request_body data size' ∧
    bulk_insert_into_el data size transport
      = bulk_insert_into_el data size' transport ∧
    bulk_insert_into_el data size transport
      = (match transport (bulk_request_body data size) with
         | .error e => .error e
         | .ok response_body =>
           match bulk_response_success response_body with
           | some successful => .ok successful
           | none => .error "called Option.unwrap on a None value") :=
  ⟨rfl, rfl, rfl⟩

/-- The alternating action-header/document shape of the bulk body, starting
at document id `n` (helper for reasoning about `bulk_request_body`). -/
def bulk_lines (n : Nat) : List Customer → List Json
  | [] => []
  | c :: cs => action_line n :: Customer.toJson c :: bulk_lines (n + 1) cs

theorem bulk_foldl_enumFrom (cs : List Customer) (n : Nat) (acc : List Json) :
    (List.enumFrom n cs).foldl
        (fun body p => body ++ [action_line p.1, Customer.toJson p.2]) acc
      = acc ++ bulk_lines n cs := by
  induction cs generalizing n acc with
  | nil => simp [bulk_lines, List.enumFrom]
  | cons c cs ih => simp [List.enumFrom, bulk_lines, ih]

theorem bulk_request_body_eq (data : List Customer) (size : Nat) :
    bulk_request_body data size = bulk_lines 0 data := by
  have h := bulk_foldl_enumFrom data 0 []
  simpa [bulk_request_body, List.enum] using h

theorem bulk_lines_length (n : Nat) (cs : List Customer) :
    (bulk_lines n cs).length = 2 * cs.length := by
  induction cs generalizing n with
  | nil => rfl
  | cons c cs ih =>
    simp only [bulk_lines, List.length_cons, ih n.succ]
    omega

theorem bulk_lines_getElem? (cs : List Customer) (n idx : Nat) (h : idx < cs.length) :
    (bulk_lines n cs)[2 * idx]? = some (action_line (n + idx)) ∧
    (bulk_lines n cs)[2 * idx + 1]? = some (Customer.toJson (cs.get ⟨idx, h⟩)) := by
  induction cs generalizing n idx with
  | nil => exact absurd h (Nat.not_lt_zero _)
  | cons c cs ih =>
    cases idx with
    | zero => simp [bulk_lines]
    | succ i =>
      have h' : i < cs.length := Nat.lt_of_succ_lt_succ h
      obtain ⟨H1, H2⟩ := ih (n + 1) i h'
      have e1 : 2 * (i + 1) = 2 * i + 1 + 1 := by ring
      have e2 : 2 * (i + 1) + 1 = 2 * i + 1 + 1 + 1 := by ring
      have hn : n + 1 + i = n + (i + 1) := by omega
      refine ⟨?_, ?_⟩
      · rw [e1]
        show (action_line n :: Customer.toJson c :: bulk_lines (n + 1) cs)[2 * i + 1 + 1]?
          = some (action_line (n + (i + 1)))
        rw [List.getElem?_cons_succ, List.getElem?_cons_succ, H1, hn]
      · rw [e2]
        show (action_line n :: Customer.toJson c :: bulk_lines (n + 1) cs)[2 * i + 1 + 1 + 1]?
          = some (Customer.toJson ((c :: cs).get ⟨i + 1, h⟩))
        rw [List.getElem?_cons_succ, List.getElem?_cons_succ, H2]
        rfl

/-- C5: Bulk payload shape. The request body has exactly `2 * N` entries: at
positions `2*idx` and `2*idx + 1` stand the action header
`{"index": {"_id": idx}}` and the JSON serialization of the `idx`-th
denormalized Customer, for every zero-based `idx`. -/
theorem bulk_payload_shape (data : List Customer) (size : Nat) :
    (bulk_request_body data size).length = 2 * data.length ∧
    ∀ idx (h : idx < data.length),
      (bulk_request_body data size)[2 * idx]? = some (action_line idx) ∧
      (bulk_request_body data size)[2 * idx + 1]?
        = some (Customer.toJson (data.get ⟨idx, h⟩)) := by
  rw [bulk_request_body_eq]
  refine ⟨bulk_lines_length 0 data, fun idx h => ?_⟩
  simpa using bulk_lines_getElem? data 0 idx h

/-- Witness for C5 on a one-customer list. -/
theorem bulk_payload_shape_witness :
    (bulk_request_body [Customer.mk 1 "A" []] 2000).length = 2 * 1 ∧
    ((bulk_request_body [Customer.mk 1 "A" []] 2000)[2 * 0]? = some (action_line 0) ∧
     (bulk_request_body [Customer.mk 1 "A" []] 2000)[2 * 0 + 1]?
       = some (Customer.toJson (Customer.mk 1 "A" []))) :=
  ⟨(bulk_payload_shape [Customer.mk 1 "A" []] 2000).1,
   (bulk_payload_shape [Customer.mk 1 "A" []] 2000).2 0 (by decide)⟩

/-- C1: Customer enrichment. Over fetched customers (whose `orders` start
empty, as `fetch_all_customers` constructs them), pass 2 preserves length and
index correspondence; where the rebuilt grouping has an entry for a
customer's id, that customer's `orders` become exactly the enriched orders
with that `customer_id`, in original fetch order; where it has none, the
customer is unchanged and its `orders` are empty. -/
theorem customer_enrichment (customer_list : List Customer) (order_list : List Order)
    (items_list : List Item)
    (hc : ∀ c ∈ customer_list, c.orders = []) :
    (denormalize customer_list order_list items_list).length = customer_list.length ∧
    (∀ (i : Nat) (c : Customer), customer_list[i]? = some c →
      ∀ l, mapLookup (orders_map (enrich_orders order_list items_list)) c.customer_id
          = some l →
        (denormalize customer_list order_list items_list)[i]?
          = some { c with orders := l } ∧
        l = (enrich_orders order_list items_list).filter
            (fun o => o.customer_id = c.customer_id)) ∧
    (∀ (i : Nat) (c : Customer), customer_list[i]? = some c →
      mapLookup (orders_map (enrich_orders order_list items_list)) c.customer_id
          = none →
        (denormalize customer_list order_list items_list)[i]? = some c ∧
        c.orders = []) := by
  refine ⟨by simp [denormalize], fun i c hi l hl => ⟨?_, ?_⟩,
          fun i c hi hnone => ⟨?_, ?_⟩⟩
  · unfold denormalize
    rw [List.getElem?_map, hi]
    simp [sort_data_customers, hl]
  · exact mapLookup_group_some hl
  · unfold denormalize
    rw [List.getElem?_map, hi]
    simp [sort_data_customers, hnone]
  · exact hc c (List.getElem?_mem hi)

/-- Witness for C1: the spec's concrete scenario
Customers=[{1,"A"}], Orders=[{10,"O1",1}], Items=[{100,"I1",10}]. -/
theorem customer_enrichment_witness :
    (denormalize [Customer.mk 1 "A" []] [Order.mk 10 "O1" 1 []]
        [Item.mk 100 "I1" 10])[0]?
      = some (Customer.mk 1 "A" [Order.mk 10 "O1" 1 [Item.mk 100 "I1" 10]]) ∧
    [Order.mk 10 "O1" 1 [Item.mk 100 "I1" 10]]
      = (enrich_orders [Order.mk 10 "O1" 1 []] [Item.mk 100 "I1" 10]).filter
          (fun o => o.customer_id = 1) :=
  (customer_enrichment [Customer.mk 1 "A" []] [Order.mk 10 "O1" 1 []]
      [Item.mk 100 "I1" 10] (by decide)).2.1 0 (Customer.mk 1 "A" []) (by decide)
    [Order.mk 10 "O1" 1 [Item.mk 100 "I1" 10]] (by decide)

/-- C2: Order enrichment. Over fetched orders (empty `items`, `order_id` a
primary key, hence no duplicate ids), pass 1 preserves length and index
correspondence; where the item grouping has an entry for an order's id, that
order's `items` become exactly the fetched items with that `order_id`, in
original fetch order; where it has none, the order is unchanged and its
`items` are empty; and no item ends up in the items of two distinct output
orders. -/
theorem order_enrichment (order_list : List Order) (items_list : List Item)
    (ho : ∀ o ∈ order_list, o.items = [])
    (hnodup : (order_list.map Order.order_id).Nodup) :
    (enrich_orders order_list items_list).length = order_list.length ∧
    (∀ (i : Nat) (o : Order), order_list[i]? = some o →
      ∀ l, mapLookup (items_map items_list) o.order_id = some l →
        (enrich_orders order_list items_list)[i]? = some { o with items := l } ∧
        l = items_list.filter (fun it => it.order_id = o.order_id)) ∧
    (∀ (i : Nat) (o : Order), order_list[i]? = some o →
      mapLookup (items_map items_list) o.order_id = none →
        (enrich_orders order_list items_list)[i]? = some o ∧ o.items = []) ∧
    (∀ (i j : Nat) (oi oj : Order), i ≠ j →
      (enrich_orders order_list items_list)[i]? = some oi →
      (enrich_orders order_list items_list)[j]? = some oj →
      ∀ x : Item, x ∈ oi.items → x ∉ oj.items) := by
  refine ⟨by simp [enrich_orders], fun i o hi l hl => ⟨?_, ?_⟩,
          fun i o hi hnone => ⟨?_, ?_⟩, fun i j oi oj hij hi hj x hxi hxj => ?_⟩
  · unfold enrich_orders
    rw [List.getElem?_map, hi]
    simp [sort_data_orders, hl]
  · exact mapLookup_group_some hl
  · unfold enrich_orders
    rw [List.getElem?_map, hi]
    simp [sort_data_orders, hnone]
  · exact ho o (List.getElem?_mem hi)
  · unfold enrich_orders at hi hj
    rw [List.getElem?_map] at hi hj
    rcases hoi : order_list[i]? with _ | o₁
    · rw [hoi] at hi; exact Option.noConfusion hi
    rcases hoj : order_list[j]? with _ | o₂
    · rw [hoj] at hj; exact Option.noConfusion hj
    rw [hoi] at hi
    rw [hoj] at hj
    simp only [Option.map_some'] at hi hj
    obtain rfl : sort_data_orders o₁ (items_map items_list) = oi :=
      Option.some.inj hi
    obtain rfl : sort_data_orders o₂ (items_map items_list) = oj :=
      Option.some.inj hj
    rw [sort_data_orders_eq o₁ items_list (ho o₁ (List.getElem?_mem hoi))] at hxi
    rw [sort_data_orders_eq o₂ items_list (ho o₂ (List.getElem?_mem hoj))] at hxj
    simp only [List.mem_filter, decide_eq_true_eq] at hxi hxj
    have hne : o₁.order_id ≠ o₂.order_id := by
      have hmi : (order_list.map Order.order_id)[i]? = some o₁.order_id := by
        rw [List.getElem?_map, hoi]; rfl
      have hmj : (order_list.map Order.order_id)[j]? = some o₂.order_id := by
        rw [List.getElem?_map, hoj]; rfl
      exact nodup_getElem?_ne hnodup hij hmi hmj
    exact hne (hxi.2.symm.trans hxj.2)

/-- Witness for C2 on a two-order, two-item list with one shared key. -/
theorem order_enrichment_witness :
    (enrich_orders [Order.mk 10 "O1" 1 [], Order.mk 11 "O2" 1 []]
        [Item.mk 100 "I1" 10, Item.mk 101 "I2" 10])[0]?
      = some (Order.mk 10 "O1" 1 [Item.mk 100 "I1" 10, Item.mk 101 "I2" 10]) ∧
    [Item.mk 100 "I1" 10, Item.mk 101 "I2" 10]
      = [Item.mk 100 "I1" 10, Item.mk 101 "I2" 10].filter
          (fun it => it.order_id = 10) :=
  (order_enrichment [Order.mk 10 "O1" 1 [], Order.mk 11 "O2" 1 []]
      [Item.mk 100 "I1" 10, Item.mk 101 "I2" 10] (by decide) (by decide)).2.1
    0 (Order.mk 10 "O1" 1 []) (by decide)
    [Item.mk 100 "I1" 10, Item.mk 101 "I2" 10] (by decide)

theorem mapLookup_group_eq_of_filter_eq {α : Type} [DecidableEq α] (key : α → Int)
    {xs ys : List α} (k : Int)
    (h : xs.filter (fun x => key x = k) = ys.filter (fun x => key x = k)) :
    mapLookup (group_by_key key xs) k = mapLookup (group_by_key key ys) k := by
  rw [mapLookup_group_by_key, mapLookup_group_by_key, h]

/-- C4: Silent drop of orphans. An Order whose `customer_id` matches no
Customer leaves the denormalized output exactly as if it had not been
fetched, and appears in no customer's `orders`; an Item whose `order_id`
matches no Order likewise leaves both enrichment passes unchanged and
appears in no order's `items`. Denormalization is a total function, so no
error can be raised. -/
theorem orphan_silent_drop (customer_list : List Customer) (l₁ l₂ : List Order)
    (orphan : Order) (items_list : List Item) (order_list : List Order)
    (i₁ i₂ : List Item) (orphanItem : Item)
    (hc : ∀ c ∈ customer_list, c.orders = [])
    (ho : ∀ o ∈ order_list, o.items = [])
    (h₁ : orphan.customer_id ∉ customer_list.map Customer.customer_id)
    (h₂ : orphanItem.order_id ∉ order_list.map Order.order_id) :
    denormalize customer_list (l₁ ++ orphan :: l₂) items_list
      = denormalize customer_list (l₁ ++ l₂) items_list ∧
    (∀ c ∈ denormalize customer_list (l₁ ++ orphan :: l₂) items_list,
      ∀ o ∈ c.orders, o.customer_id ≠ orphan.customer_id) ∧
    enrich_orders order_list (i₁ ++ orphanItem :: i₂)
      = enrich_orders order_list (i₁ ++ i₂) ∧
    denormalize customer_list order_list (i₁ ++ orphanItem :: i₂)
      = denormalize customer_list order_list (i₁ ++ i₂) ∧
    (∀ o ∈ enrich_orders order_list (i₁ ++ orphanItem :: i₂),
      ∀ x ∈ o.items, x.order_id ≠ orphanItem.order_id) := by
  have hne : ∀ c ∈ customer_list, orphan.customer_id ≠ c.customer_id := by
    intro c hcm heq
    apply h₁
    rw [heq]
    exact List.mem_map_of_mem Customer.customer_id hcm
  have hneo : ∀ o ∈ order_list, orphanItem.order_id ≠ o.order_id := by
    intro o hom heq
    apply h₂
    rw [heq]
    exact List.mem_map_of_mem Order.order_id hom
  have henrich : enrich_orders order_list (i₁ ++ orphanItem :: i₂)
      = enrich_orders order_list (i₁ ++ i₂) := by
    unfold enrich_orders
    apply List.map_congr_left
    intro o hom
    apply sort_data_orders_congr
    unfold items_map
    apply mapLookup_group_eq_of_filter_eq
    simp [List.filter_append, List.filter_cons, (hneo o hom)]
  refine ⟨?_, ?_, henrich, ?_, ?_⟩
  · unfold denormalize
    apply List.map_congr_left
    intro c hcm
    apply sort_data_customers_congr
    unfold orders_map
    apply mapLookup_group_eq_of_filter_eq
    have hc' : (sort_data_orders orphan (items_map items_list)).customer_id
        = orphan.customer_id := sort_data_orders_customer_id orphan (items_map items_list)
    simp [enrich_orders, List.filter_append, List.filter_cons, hc', hne c hcm]
  · intro c' hc' o ho'
    unfold denormalize at hc'
    rw [List.mem_map] at hc'
    obtain ⟨c, hcm, rfl⟩ := hc'
    rw [sort_data_customers_eq c _ (hc c hcm)] at ho'
    simp only [List.mem_filter, decide_eq_true_eq] at ho'
    rw [ho'.2]
    exact fun heq => hne c hcm heq.symm
  · unfold denormalize
    rw [henrich]
  · intro o' ho' x hx
    unfold enrich_orders at ho'
    rw [List.mem_map] at ho'
    obtain ⟨o, hom, rfl⟩ := ho'
    rw [sort_data_orders_eq o _ (ho o hom)] at hx
    simp only [List.mem_filter, decide_eq_true_eq] at hx
    rw [hx.2]
    exact fun heq => hneo o hom heq.symm

/-- Witness for C4: the spec's scenario Orders=[{10,"O1",999}] with no
Customer 999 — output equals the run without the orphan. -/
theorem orphan_silent_drop_witness :
    denormalize [Customer.mk 1 "A" []] ([] ++ Order.mk 10 "O1" 999 [] :: []) []
      = denormalize [Customer.mk 1 "A" []] ([] ++ []) [] :=
  (orphan_silent_drop [Customer.mk 1 "A" []] [] [] (Order.mk 10 "O1" 999 [])
    [] [Order.mk 10 "O1" 1 []] [] [] (Item.mk 100 "I1" 999)
    (by decide) (by decide) (by decide) (by decide)).1

/-- C7: Asymmetric error policy. A failed customer, order or item query is
absorbed: the run proceeds exactly as with an empty fetched list. A failing
transport on the terminal bulk write, or a response without a boolean
`errors` flag, makes the whole run end in a fatal error (never a printed
success): `none` covers the case where a fetch-conversion panic aborted the
run even earlier. -/
theorem asymmetric_error_policy :
    (∀ (e : String) (ordQ : Except String (List OrderRow))
        (itmQ : Except String (List ItemRow))
        (transport : List Json → Except String Json),
      main_run (.error e) ordQ itmQ transport
        = main_run (.ok []) ordQ itmQ transport) ∧
    (∀ (custQ : Except String (List CustomerRow)) (e : String)
        (itmQ : Except String (List ItemRow))
        (transport : List Json → Except String Json),
      main_run custQ (.error e) itmQ transport
        = main_run custQ (.ok []) itmQ transport) ∧
    (∀ (custQ : Except String (List CustomerRow))
        (ordQ : Except String (List OrderRow)) (e : String)
        (transport : List Json → Except String Json),
      main_run custQ ordQ (.error e) transport
        = main_run custQ ordQ (.ok []) transport) ∧
    (∀ (custQ : Except String (List CustomerRow))
        (ordQ : Except String (List OrderRow))
        (itmQ : Except String (List ItemRow)) (e : String)
        (transport : List Json → Except String Json),
      (∀ body, transport body = .error e) →
      main_run custQ ordQ itmQ transport = none ∨
      main_run custQ ordQ itmQ transport = some (.error e)) ∧
    (∀ (custQ : Except String (List CustomerRow))
        (ordQ : Except String (List OrderRow))
        (itmQ : Except String (List ItemRow))
        (transport : List Json → Except String Json) (j : Json),
      (∀ body, transport body = .ok j) →
      (j.index "errors").as_bool = none →
      main_run custQ ordQ itmQ transport = none ∨
      main_run custQ ordQ itmQ transport
        = some (.error "called Option.unwrap on a None value")) := by
  refine ⟨fun e ordQ itmQ transport => rfl, fun custQ e itmQ transport => ?_,
          fun custQ ordQ e transport => ?_,
          fun custQ ordQ itmQ e transport ht => ?_,
          fun custQ ordQ itmQ transport j ht hj => ?_⟩
  · unfold main_run
    cases fetch_all_customers custQ with
    | none => rfl
    | some custs => rfl
  · unfold main_run
    cases fetch_all_customers custQ with
    | none => rfl
    | some custs =>
      cases fetch_all_orders ordQ with
      | none => rfl
      | some ords => rfl
  · unfold main_run
    cases fetch_all_customers custQ with
    | none => exact Or.inl rfl
    | some custs =>
      cases fetch_all_orders ordQ with
      | none => exact Or.inl rfl
      | some ords =>
        cases fetch_all_items itmQ with
        | none => exact Or.inl rfl
        | some itms =>
          right
          simp [bulk_insert_into_el, ht]
  · unfold main_run
    cases fetch_all_customers custQ with
    | none => exact Or.inl rfl
    | some custs =>
      cases fetch_all_orders ordQ with
      | none => exact Or.inl rfl
      | some ords =>
        cases fetch_all_items itmQ with
        | none => exact Or.inl rfl
        | some itms =>
          right
          simp [bulk_insert_into_el, ht, bulk_response_success, hj]

/-- Witness for C7: an always-failing transport ends the run fatally. -/
theorem asymmetric_error_policy_witness :
    main_run (.ok []) (.ok []) (.ok []) (fun _ => .error "boom") = none ∨
    main_run (.ok []) (.ok []) (.ok []) (fun _ => .error "boom")
      = some (.error "boom") :=
  (asymmetric_error_policy).2.2.2.1 (.ok []) (.ok []) (.ok []) "boom"
    (fun _ => .error "boom") (fun _ => rfl)

theorem rows_to_customers_eq_none {rows : List CustomerRow}
    (h : ∃ r ∈ rows, r.description = none) : rows_to_customers rows = none := by
  induction rows with
  | nil => simp at h
  | cons r rs ih =>
    obtain ⟨r', hr', hd⟩ := h
    rcases List.mem_cons.mp hr' with rfl | hmem
    · unfold rows_to_customers
      rw [hd]
    · have hrs := ih ⟨r', hmem, hd⟩
      unfold rows_to_customers
      rcases r.description with _ | d
      · rfl
      · rw [hrs]; rfl

theorem rows_to_orders_eq_none {rows : List OrderRow}
    (h : ∃ r ∈ rows, r.order_description = none) : rows_to_orders rows = none := by
  induction rows with
  | nil => simp at h
  | cons r rs ih =>
    obtain ⟨r', hr', hd⟩ := h
    rcases List.mem_cons.mp hr' with rfl | hmem
    · unfold rows_to_orders
      rw [hd]
    · have hrs := ih ⟨r', hmem, hd⟩
      unfold rows_to_orders
      rcases r.order_description with _ | d
      · rcases r.customer_id with _ | cid <;> rfl
      · rcases r.customer_id with _ | cid
        · rfl
        · rw [hrs]; rfl

theorem rows_to_items_eq_none {rows : List ItemRow}
    (h : ∃ r ∈ rows, r.item_description = none) : rows_to_items rows = none := by
  induction rows with
  | nil => simp at h
  | cons r rs ih =>
    obtain ⟨r', hr', hd⟩ := h
    rcases List.mem_cons.mp hr' with rfl | hmem
    · unfold rows_to_items
      rw [hd]
    · have hrs := ih ⟨r', hmem, hd⟩
      unfold rows_to_items
      rcases r.item_description with _ | d
      · rcases r.order_id with _ | oid <;> rfl
      · rcases r.order_id with _ | oid
        · rfl
        · rw [hrs]; rfl

/-- C8: Null-description fatality. A fetched row whose description is null
makes the row-conversion loop panic, aborting the whole run (`none`); it is
not absorbed, unlike a query failure, which yields `some (.error e)` at the
fetch and degrades to the empty entity list in `main`. -/
theorem null_description_fatal :
    (∀ rows : List CustomerRow, (∃ r ∈ rows, r.description = none) →
      fetch_all_customers (.ok rows) = none ∧
      ∀ (ordQ : Except String (List OrderRow))
        (itmQ : Except String (List ItemRow))
        (transport : List Json → Except String Json),
        main_run (.ok rows) ordQ itmQ transport = none) ∧
    (∀ rows : List OrderRow, (∃ r ∈ rows, r.order_description = none) →
      fetch_all_orders (.ok rows) = none ∧
      ∀ (custQ : Except String (List CustomerRow))
        (itmQ : Except String (List ItemRow))
        (transport : List Json → Except String Json),
        main_run custQ (.ok rows) itmQ transport = none) ∧
    (∀ rows : List ItemRow, (∃ r ∈ rows, r.item_description = none) →
      fetch_all_items (.ok rows) = none ∧
      ∀ (custQ : Except String (List CustomerRow))
        (ordQ : Except String (List OrderRow))
        (transport : List Json → Except String Json),
        main_run custQ ordQ (.ok rows) transport = none) ∧
    (∀ e : String,
      fetch_all_customers (.error e) = some (.error e) ∧
      unwrap_or_empty (.error e : Except String (List Customer)) = []) := by
  refine ⟨fun rows h => ?_, fun rows h => ?_, fun rows h => ?_,
          fun e => ⟨rfl, rfl⟩⟩
  · have hnone := rows_to_customers_eq_none h
    have hf : fetch_all_customers (.ok rows) = none := by
      simp [fetch_all_customers, hnone]
    refine ⟨hf, fun ordQ itmQ transport => ?_⟩
    unfold main_run
    rw [hf]
  · have hnone := rows_to_orders_eq_none h
    have hf : fetch_all_orders (.ok rows) = none := by
      simp [fetch_all_orders, hnone]
    refine ⟨hf, fun custQ itmQ transport => ?_⟩
    unfold main_run
    cases fetch_all_customers custQ with
    | none => rfl
    | some custs => rw [hf]
  · have hnone := rows_to_items_eq_none h
    have hf : fetch_all_items (.ok rows) = none := by
      simp [fetch_all_items, hnone]
    refine ⟨hf, fun custQ ordQ transport => ?_⟩
    unfold main_run
    cases fetch_all_customers custQ with
    | none => rfl
    | some custs =>
      cases fetch_all_orders ordQ with
      | none => rfl
      | some ords => rw [hf]

/-- Witness for C8: a customer row with a null description aborts the run. -/
theorem null_description_fatal_witness :
    fetch_all_customers (.ok [CustomerRow.mk 1 none]) = none ∧
    main_run (.ok [CustomerRow.mk 1 none]) (.ok []) (.ok [])
        (fun _ => .error "down") = none :=
  ⟨((null_description_fatal).1 [CustomerRow.mk 1 none]
      ⟨CustomerRow.mk 1 none, by decide, rfl⟩).1,
   ((null_description_fatal).1 [CustomerRow.mk 1 none]
      ⟨CustomerRow.mk 1 none, by decide, rfl⟩).2 (.ok []) (.ok [])
      (fun _ => .error "down")⟩

end RustIndexer
